import Mathlib

/-!
Verification of the chainsop library (a Rust library for chaining
file-transforming subprocess / function operations).

This file gives a shallow embedding of the parts of the library needed to
settle the claims:

  * the `EnvSpec` algebra of `src/execution.rs` (constructors `add`, `rmv`,
    `prepend`, `append`, their `elide` / `join_prepend` / `join_append`
    helpers, and the realization `update_env` against a
    `std::process::Command` environment);
  * the file model of `src/filehandling/defs.rs` and
    `src/filehandling/accesses.rs` (`FileArg`, `FileRef`, `ActualFile`,
    `extend`, `to_path`, `to_paths`, `setup_file`);
  * the subprocess operation of `src/operations/subproc.rs`
    (`emit_output_file_first`, `setup_exe_file`, `cmd_file_setup`,
    `finalize_args`, `run_cmd`, `execute`);
  * the function operation of `src/operations/function.rs`;
  * chained operations of `src/operations/chained.rs`
    (`ChainedOps::execute` and `execute_chain`).

Rust `PathBuf` values are modelled as `String` with the `push` / `join`
semantics made explicit; the `OsRun` executor trait is instantiated at a
recording collector (the test-seam executors `ArgCollector` /
`TestCollector` / `CallCollector` of the library's own test modules, with
the dry-run glob behaviour made configurable), with the executor's mutable
internal state threaded explicitly as an `ExecSt` value.
-/

namespace Chainsop

/-- Model of `std::path::Path::is_absolute` for the POSIX paths used
throughout the library's tests: the path starts with the separator. -/
def isAbsolutePath (p : String) : Bool := p.data.headD ' ' = '/'

/-- Model of `str::ends_with("=")` as used on option flags: the string's
last character is `'='`. -/
def endsWithEq (s : String) : Bool := s.data.getLastD ' ' = '='

/-- Model of `PathBuf::push` (and `Path::join`, which is push on a clone):
pushing an absolute path replaces the base, otherwise the path is appended
after a separator. -/
def pushPath (base p : String) : String :=
  if isAbsolutePath p then p
  else if base = "" then p
  else base ++ "/" ++ p

/-- First-match lookup in an association list, modelling both
`HashMap::get` and the `vars().find(...)` search in `update_env`. -/
def lookupA {α : Type} : List (String × α) → String → Option α
  | [], _ => none
  | (k, v) :: rest, key => if k = key then some v else lookupA rest key

/- ----------------------------------------------------------------------
   EnvSpec (src/execution.rs lines 123-369)
   ---------------------------------------------------------------------- -/

/-- The `EnvSpec` enum of `src/execution.rs`: a recursive specification of
environment mutations.  `SubEnvSpec` is only a visibility wrapper around
the boxed recursion in Rust, so the nesting is inlined here. -/
inductive EnvSpec : Type where
  | stdEnv : EnvSpec
  | blankEnv : EnvSpec
  | envAdd (n v : String) (se : EnvSpec) : EnvSpec
  | envPrepend (n v s : String) (se : EnvSpec) : EnvSpec
  | envAppend (n v s : String) (se : EnvSpec) : EnvSpec
  | envRemove (n : String) (se : EnvSpec) : EnvSpec
deriving DecidableEq, Repr

/-- The private `Elide` enum of `src/execution.rs` selecting which nodes an
elide sweep removes. -/
inductive Elide : Type where
  | all (v : String)
  | forAppend (v : String)
  | forPrepend (v : String)

namespace EnvSpec

/-- Translation of `EnvSpec::elide` (src/execution.rs lines 174-218).
Note that a matching arm returns the boxed sub-spec directly, without
recursively eliding it. -/
def elide : EnvSpec → Elide → EnvSpec
  | envAdd n v se, what =>
    match what with
    | .all vn => if n = vn then se else envAdd n v (se.elide what)
    | .forAppend vn => if n = vn then se else envAdd n v (se.elide what)
    | .forPrepend vn => if n = vn then se else envAdd n v (se.elide what)
  | envRemove n se, what =>
    match what with
    | .all vn => if n = vn then se else envRemove n (se.elide what)
    | .forAppend vn => if n = vn then se else envRemove n (se.elide what)
    | .forPrepend vn => if n = vn then se else envRemove n (se.elide what)
  | envPrepend n v s se, what =>
    match what with
    | .all vn => if n = vn then se else envPrepend n v s (se.elide what)
    | .forPrepend vn => if n = vn then se else envPrepend n v s (se.elide what)
    | .forAppend _ => envPrepend n v s (se.elide what)
  | envAppend n v s se, what =>
    match what with
    | .all vn => if n = vn then se else envAppend n v s (se.elide what)
    | .forAppend vn => if n = vn then se else envAppend n v s (se.elide what)
    | .forPrepend _ => envAppend n v s (se.elide what)
  | stdEnv, _ => stdEnv
  | blankEnv, _ => blankEnv

/-- Translation of `EnvSpec::join_prepend` (src/execution.rs lines 220-260). -/
def join_prepend : EnvSpec → String → String → String → Option EnvSpec
  | envAdd n v se, var, value, sep =>
    if n = var then
      some (envAdd n (value ++ sep ++ v) se)
    else
      (se.join_prepend var value sep).map (fun t => envAdd n v t)
  | envRemove n se, var, value, sep =>
    (se.join_prepend var value sep).map (fun t => envRemove n t)
  | envPrepend n v s se, var, value, sep =>
    if n = var then
      some (envPrepend n (value ++ sep ++ v) s se)
    else
      (se.join_prepend var value sep).map (fun t => envPrepend n v s t)
  | envAppend n v s se, var, value, sep =>
    (se.join_prepend var value sep).map (fun t => envAppend n v s t)
  | stdEnv, _, _, _ => none
  | blankEnv, _, _, _ => none

/-- Translation of `EnvSpec::join_append` (src/execution.rs lines 262-302). -/
def join_append : EnvSpec → String → String → String → Option EnvSpec
  | envAdd n v se, var, value, sep =>
    if n = var then
      some (envAdd n (v ++ sep ++ value) se)
    else
      (se.join_append var value sep).map (fun t => envAdd n v t)
  | envRemove n se, var, value, sep =>
    (se.join_append var value sep).map (fun t => envRemove n t)
  | envPrepend n v s se, var, value, sep =>
    (se.join_append var value sep).map (fun t => envPrepend n v s t)
  | envAppend n v s se, var, value, sep =>
    if n = var then
      some (envAppend n (v ++ sep ++ value) s se)
    else
      (se.join_append var value sep).map (fun t => envAppend n v s t)
  | stdEnv, _, _, _ => none
  | blankEnv, _, _, _ => none

/-- Translation of the public constructor `EnvSpec::add`. -/
def add (self : EnvSpec) (var_name var_value : String) : EnvSpec :=
  envAdd var_name var_value (self.elide (.all var_name))

/-- Translation of the public constructor `EnvSpec::prepend`. -/
def prepend (self : EnvSpec) (var value sep : String) : EnvSpec :=
  match self.join_prepend var value sep with
  | none => envPrepend var value sep (self.elide (.forPrepend var))
  | some e => e

/-- Translation of the public constructor `EnvSpec::append`. -/
def append (self : EnvSpec) (var value sep : String) : EnvSpec :=
  match self.join_append var value sep with
  | none => envAppend var value sep (self.elide (.forAppend var))
  | some e => e

/-- Translation of the public constructor `EnvSpec::rmv`. -/
def rmv (self : EnvSpec) (var_name : String) : EnvSpec :=
  envRemove var_name (self.elide (.all var_name))

/-- Whether any node of the spec references the given variable. -/
def refsVar : EnvSpec → String → Bool
  | stdEnv, _ => false
  | blankEnv, _ => false
  | envAdd n _ se, v => n = v || se.refsVar v
  | envPrepend n _ _ se, v => n = v || se.refsVar v
  | envAppend n _ _ se, v => n = v || se.refsVar v
  | envRemove n se, v => n = v || se.refsVar v

/-- Whether the spec contains an `EnvAdd` node for the given variable. -/
def hasAddV : EnvSpec → String → Bool
  | stdEnv, _ => false
  | blankEnv, _ => false
  | envAdd n _ se, v => n = v || se.hasAddV v
  | envPrepend _ _ _ se, v => se.hasAddV v
  | envAppend _ _ _ se, v => se.hasAddV v
  | envRemove _ se, v => se.hasAddV v

/-- Whether the spec contains an `EnvPrepend` node for the given variable. -/
def hasPrependV : EnvSpec → String → Bool
  | stdEnv, _ => false
  | blankEnv, _ => false
  | envAdd _ _ se, v => se.hasPrependV v
  | envPrepend n _ _ se, v => n = v || se.hasPrependV v
  | envAppend _ _ _ se, v => se.hasPrependV v
  | envRemove _ se, v => se.hasPrependV v

/-- Whether the spec contains an `EnvAppend` node for the given variable. -/
def hasAppendV : EnvSpec → String → Bool
  | stdEnv, _ => false
  | blankEnv, _ => false
  | envAdd _ _ se, v => se.hasAppendV v
  | envPrepend _ _ _ se, v => se.hasAppendV v
  | envAppend n _ _ se, v => n = v || se.hasAppendV v
  | envRemove _ se, v => se.hasAppendV v

/-- The normalization invariants documented for `EnvSpec` in
src/execution.rs (lines 108-121): nothing below an `EnvAdd(v)` or
`EnvRemove(v)` references `v`; at most one `EnvPrepend` and at most one
`EnvAppend` per variable; an `EnvPrepend`/`EnvAppend` never has an
`EnvAdd` of the same variable below it. -/
def nf : EnvSpec → Bool
  | stdEnv => true
  | blankEnv => true
  | envAdd n _ se => !se.refsVar n && se.nf
  | envRemove n se => !se.refsVar n && se.nf
  | envPrepend n _ _ se => !se.hasPrependV n && !se.hasAddV n && se.nf
  | envAppend n _ _ se => !se.hasAppendV n && !se.hasAddV n && se.nf

end EnvSpec

/- ----------------------------------------------------------------------
   Command environment realization (src/execution.rs lines 389-418)
   ---------------------------------------------------------------------- -/

/-- Model of `std::process::Command`'s environment bookkeeping
(`CommandEnv` in the Rust standard library): a clear flag plus an explicit
map from names to `Some value` (set) or `None` (removal marker). -/
structure CommandEnv : Type where
  clearFlag : Bool
  vars : List (String × Option String)
deriving DecidableEq, Repr

/-- Insert-or-replace into the explicit variable map. -/
def envInsert : List (String × Option String) → String → Option String →
    List (String × Option String)
  | [], k, v => [(k, v)]
  | (k', v') :: rest, k, v =>
    if k' = k then (k, v) :: rest else (k', v') :: envInsert rest k v

namespace CommandEnv

/-- A fresh `Command` inherits the parent environment: no clear flag, no
explicit variables. -/
def init : CommandEnv := { clearFlag := false, vars := [] }

/-- Model of `Command::env`: record an explicit setting (last write wins). -/
def env (c : CommandEnv) (k v : String) : CommandEnv :=
  { c with vars := envInsert c.vars k (some v) }

/-- Model of `Command::env_remove`: after a clear the explicit entry is
dropped, otherwise a removal marker is recorded. -/
def env_remove (c : CommandEnv) (k : String) : CommandEnv :=
  if c.clearFlag then { c with vars := c.vars.filter (fun p => !(p.1 = k)) }
  else { c with vars := envInsert c.vars k none }

/-- Model of `Command::env_clear`: sets the clear flag and drops all
explicitly recorded variables, including ones recorded earlier. -/
def env_clear (_ : CommandEnv) : CommandEnv :=
  { clearFlag := true, vars := [] }

/-- The environment the spawned child would observe, given the parent
process environment: with the clear flag only the explicit `Some` entries
survive; otherwise the parent is overlaid by the explicit map. -/
def realize (c : CommandEnv) (parent : List (String × String)) (v : String) :
    Option String :=
  match lookupA c.vars v with
  | some (some x) => some x
  | some none => none
  | none => if c.clearFlag then none else lookupA parent v

end CommandEnv

/-- Translation of `update_env` (src/execution.rs lines 389-418).  The
outermost `EnvSpec` node is applied to the `Command` first, and the
recursion then applies the nested nodes; `vars()` (the parent process
environment) is modelled by the `parentVars` association list. -/
def update_env (parentVars : List (String × String)) (cmnd : CommandEnv) :
    EnvSpec → CommandEnv
  | .stdEnv => cmnd
  | .blankEnv => cmnd.env_clear
  | .envRemove n se => update_env parentVars (cmnd.env_remove n) se
  | .envAdd n v se => update_env parentVars (cmnd.env n v) se
  | .envAppend n v s se =>
    match lookupA parentVars n with
    | none => update_env parentVars (cmnd.env n v) se
    | some orig_val => update_env parentVars (cmnd.env n (orig_val ++ s ++ v)) se
  | .envPrepend n v s se =>
    match lookupA parentVars n with
    | none => update_env parentVars (cmnd.env n v) se
    | some orig_val => update_env parentVars (cmnd.env n (v ++ s ++ orig_val)) se

/-- Insert-or-replace for a realized environment. -/
def setVar : List (String × String) → String → String → List (String × String)
  | [], k, v => [(k, v)]
  | (k', v') :: rest, k, v =>
    if k' = k then (k, v) :: rest else (k', v') :: setVar rest k v

/-- Modelled from the spec: realization of an `EnvSpec` against an actual
environment per spec section 4.7 — "traverse the spec from innermost
(terminator) outward, applying each mutation to a working environment;
`Append`/`Prepend` against a missing variable create it with just `x` (no
separator)".  This is the reference semantics the code's `update_env` is
compared against. -/
def specRealizeEnv (parent : List (String × String)) : EnvSpec → List (String × String)
  | .stdEnv => parent
  | .blankEnv => []
  | .envAdd n v se => setVar (specRealizeEnv parent se) n v
  | .envRemove n se => (specRealizeEnv parent se).filter (fun p => !(p.1 = n))
  | .envAppend n v s se =>
    let w := specRealizeEnv parent se
    match lookupA w n with
    | none => setVar w n v
    | some o => setVar w n (o ++ s ++ v)
  | .envPrepend n v s se =>
    let w := specRealizeEnv parent se
    match lookupA w n with
    | none => setVar w n v
    | some o => setVar w n (v ++ s ++ o)

/- ----------------------------------------------------------------------
   File model (src/filehandling/defs.rs)
   ---------------------------------------------------------------------- -/

/-- The `FileArg` enum of src/filehandling/defs.rs. -/
inductive FileArg : Type where
  | loc (p : String)
  | globIn (dpath : String) (glob : String)
  | temp (suffix : String)
  | tbd
deriving DecidableEq, Repr

/-- The `FileRef` enum of src/filehandling/defs.rs.  A `NamedTempFile`
resource handle is represented by the path the handle reports. -/
inductive FileRef : Type where
  | staticFile (p : String)
  | tempFile (p : String)
deriving DecidableEq, Repr

/-- The `ActualFile` enum of src/filehandling/defs.rs. -/
inductive ActualFile : Type where
  | noActualFile
  | singleFile (f : FileRef)
  | multiFile (fs : List FileRef)
deriving DecidableEq, Repr

/-- The `FileTransformation` struct of src/filehandling/defs.rs. -/
structure FileTransformation : Type where
  inp_filenames : List FileArg
  out_filename : FileArg
  in_dir : Option String
deriving DecidableEq, Repr

/-- `FileTransformation::new`. -/
def FileTransformation.new : FileTransformation :=
  { inp_filenames := [], out_filename := .tbd, in_dir := none }

namespace FileTransformation

/-- `FilesPrep::set_dir` for `FileTransformation`. -/
def set_dir (ft : FileTransformation) (tgtdir : String) : FileTransformation :=
  { ft with in_dir := some tgtdir }

/-- `FilesPrep::set_input_file` for `FileTransformation`. -/
def set_input_file (ft : FileTransformation) (fname : FileArg) : FileTransformation :=
  { ft with inp_filenames := [fname] }

/-- `FilesPrep::add_input_file` for `FileTransformation`. -/
def add_input_file (ft : FileTransformation) (fname : FileArg) : FileTransformation :=
  { ft with inp_filenames := ft.inp_filenames ++ [fname] }

/-- `FilesPrep::has_input_file` for `FileTransformation`. -/
def has_input_file (ft : FileTransformation) : Bool :=
  !ft.inp_filenames.isEmpty

/-- `FilesPrep::set_output_file` for `FileTransformation`. -/
def set_output_file (ft : FileTransformation) (fname : FileArg) : FileTransformation :=
  { ft with out_filename := fname }

/-- `FilesPrep::has_explicit_output_file` for `FileTransformation`. -/
def has_explicit_output_file (ft : FileTransformation) : Bool :=
  match ft.out_filename with
  | .loc _ => true
  | _ => false

end FileTransformation

/-- The error taxonomy of src/errors.rs (`SubProcError`, re-exported as
`ChainsopError`); io / anyhow error payloads are carried as strings. -/
inductive Err : Type where
  | missingFile
  | badDirectory (tool : String) (p : String) (e : String)
  | runningCmd (tool : String) (args : List String) (code : Option Int)
      (dir : Option String) (stderr : String)
  | cmdSetup (tool : String) (args : List String) (e : String)
      (dir : Option String)
  | executing (tool : String) (args : List String) (e : String)
      (dir : Option String)
  | unsupportedFile (tool : String) (f : FileArg)
  | unsupportedActualFile (d : String)
  | invalidOperation
deriving DecidableEq, Repr

namespace ActualFile

/-- Translation of `ActualFile::extend`
(src/filehandling/accesses.rs lines 12-32).  Note the
`SingleFile`/`MultiFile` case pushes the single file of `self` onto the
end of `more`'s vector. -/
def extend : ActualFile → ActualFile → ActualFile
  | noActualFile, more => more
  | singleFile pb, noActualFile => singleFile pb
  | singleFile pb, singleFile pb2 => multiFile [pb, pb2]
  | singleFile pb, multiFile pbs => multiFile (pbs ++ [pb])
  | multiFile pbs, noActualFile => multiFile pbs
  | multiFile pbs, singleFile pb2 => multiFile (pbs ++ [pb2])
  | multiFile pbs, multiFile pbs2 => multiFile (pbs ++ pbs2)

/-- The path reported by a `FileRef` (`NamedTempFile::path` for temp
files). -/
def refPath : FileRef → String
  | .staticFile pb => pb
  | .tempFile tf => tf

/-- Translation of `ActualFile::get_path`
(src/filehandling/accesses.rs lines 52-63): an empty `PathBuf` extended
with the optional cwd and then the file's path. -/
def get_path (cwd : Option String) (fref : FileRef) : String :=
  match cwd with
  | some d => pushPath d (refPath fref)
  | none => refPath fref

/-- Translation of `ActualFile::to_path`
(src/filehandling/accesses.rs lines 38-50). -/
def to_path (self : ActualFile) (cwd : Option String) : Except Err String :=
  match self with
  | singleFile fref => .ok (get_path cwd fref)
  | noActualFile => .error .missingFile
  | multiFile _ => .error (.unsupportedActualFile "MultiFile")

/-- Translation of `ActualFile::to_paths`
(src/filehandling/accesses.rs lines 69-80). -/
def to_paths (self : ActualFile) (cwd : Option String) : Except Err (List String) :=
  match self with
  | singleFile fref => .ok [get_path cwd fref]
  | multiFile pbs => .ok (pbs.map (get_path cwd))
  | noActualFile => .error .missingFile

/-- The `num_files` helper of the accesses.rs test module. -/
def num_files : ActualFile → Nat
  | noActualFile => 0
  | singleFile _ => 1
  | multiFile v => v.length

end ActualFile

/- ----------------------------------------------------------------------
   Executor model (the OsRun trait of src/execution.rs, instantiated at
   the in-process recording collectors of the library's test modules)
   ---------------------------------------------------------------------- -/

/-- The `OsRunResult` enum of src/execution.rs; error payloads as strings. -/
inductive RunResult : Type where
  | good
  | execFailed (e : String)
  | execError (code : Option Int) (stderr : String)
  | runError (e : String)
  | badDirectory (p : String) (e : String)
deriving DecidableEq, Repr

/-- One recorded executor interaction (mirroring the `RunExec` / `RunFunc`
records of the test collectors in subproc.rs, function.rs, chained.rs). -/
inductive TraceEnt : Type where
  | runExec (label : String) (exe : String) (args : List String)
      (env : EnvSpec) (fromdir : Option String)
  | runFunc (name : String) (inpfiles : ActualFile) (outfile : ActualFile)
      (fromdir : Option String)
deriving DecidableEq, Repr

/-- The label under which a trace entry was recorded. -/
def TraceEnt.entLabel : TraceEnt → String
  | .runExec label _ _ _ _ => label
  | .runFunc name _ _ _ => name

/-- Whether a trace entry is a `run_executable` call (as opposed to a
`run_function` call). -/
def TraceEnt.entIsExec : TraceEnt → Bool
  | .runExec _ _ _ _ _ => true
  | .runFunc _ _ _ _ => false

/-- The mutable internal state of the recording executor: the calls
recorded so far and a counter for generating distinct temp-file names. -/
structure ExecSt : Type where
  trace : List TraceEnt
  nextTemp : Nat
deriving DecidableEq, Repr

/-- The recording executor: an `OsRun` implementation in the style of the
library's own test collectors (`ArgCollector`, `TestCollector`,
`CallCollector`), with glob results configurable (the built-in dry-run
executor corresponds to `globs` constantly `[]`). -/
structure Collector : Type where
  globs : String → List String

namespace Collector

/-- `OsRun::run_executable` for the collector: record the call, return
`Good`. -/
def run_executable (_ : Collector) (st : ExecSt) (label : String)
    (exe_file : String) (args : List String) (exe_env : EnvSpec)
    (fromdir : Option String) : ExecSt × RunResult :=
  ({ st with trace := st.trace ++ [.runExec label exe_file args exe_env fromdir] },
   .good)

/-- `OsRun::run_function` for the collector: record the call (the callback
itself is received but not invoked, as in the library's collectors),
return `Good`. -/
def run_function (_ : Collector) (st : ExecSt) (name : String)
    (_fcall : String → ActualFile → ActualFile → Except Err Unit)
    (inpfiles : ActualFile) (outfile : ActualFile)
    (fromdir : Option String) : ExecSt × RunResult :=
  ({ st with trace := st.trace ++ [.runFunc name inpfiles outfile fromdir] },
   .good)

/-- `OsRun::glob_search` for the collector: the configured results. -/
def glob_search (c : Collector) (st : ExecSt) (globpat : String) :
    ExecSt × Except Err (List String) :=
  (st, .ok (c.globs globpat))

/-- `OsRun::mk_tempfile` for the collector: a fresh temp path built from
the counter and the requested suffix. -/
def mk_tempfile (_ : Collector) (st : ExecSt) (suffix : String) :
    ExecSt × Except Err String :=
  ({ st with nextTemp := st.nextTemp + 1 },
   .ok ("tmp" ++ Nat.repr st.nextTemp ++ suffix))

end Collector

/-- Translation of `setup_file` (src/filehandling/accesses.rs lines
88-116), with `with_globbed_matches`' pattern construction
(`dir + "/" + glob`) inlined; the `on_missing` continuation is the value
it returns. -/
def setup_file (c : Collector) (st : ExecSt) (candidate : FileArg)
    (on_missing : Except Err ActualFile) : ExecSt × Except Err ActualFile :=
  match candidate with
  | .tbd => (st, on_missing)
  | .temp sfx =>
    match c.mk_tempfile st sfx with
    | (st', .error e) => (st', .error e)
    | (st', .ok tf) => (st', .ok (.singleFile (.tempFile tf)))
  | .loc fpath => (st, .ok (.singleFile (.staticFile fpath)))
  | .globIn dpath glob =>
    match c.glob_search st (dpath ++ "/" ++ glob) with
    | (st', .error e) => (st', .error e)
    | (st', .ok glob_files) =>
      (st', .ok (.multiFile (glob_files.map .staticFile)))

/- ----------------------------------------------------------------------
   Executable templates (src/executable.rs)
   ---------------------------------------------------------------------- -/

/-- The `ExeFileSpec` enum of src/executable.rs.  The `ViaCall` callback
receives the argument vector (mutably in Rust, so here it returns the new
vector), the execution-time parent directory, and the resolved
`ActualFile`. -/
inductive ExeFileSpec : Type where
  | noFileUsed
  | append
  | option (flag : String)
  | viaCall (f : List String → Option String → ActualFile → Except Err (List String))

/-- The `Executable` struct of src/executable.rs. -/
structure Executable : Type where
  exe_file : String
  base_args : List String
  inp_file : ExeFileSpec
  out_file : ExeFileSpec

/-- `Executable::new`. -/
def Executable.new (exe : String) (inp_file out_file : ExeFileSpec) : Executable :=
  { exe_file := exe, base_args := [], inp_file := inp_file, out_file := out_file }

/-- `Executable::push_arg`. -/
def Executable.push_arg (self : Executable) (arg : String) : Executable :=
  { self with base_args := self.base_args ++ [arg] }

/- ----------------------------------------------------------------------
   SubProcOperation (src/operations/subproc.rs)
   ---------------------------------------------------------------------- -/

/-- The `SubProcOperation` struct of src/operations/subproc.rs. -/
structure SubProcOperation : Type where
  name : String
  exec : Executable
  args : List String
  env : EnvSpec
  files : FileTransformation

namespace SubProcOperation

/-- `SubProcOperation::new`: name and initial args come from the
executable template. -/
def new (executing : Executable) : SubProcOperation :=
  { name := executing.exe_file
    exec := executing
    args := executing.base_args
    env := .stdEnv
    files := FileTransformation.new }

/-- `SubProcOperation::push_arg`. -/
def push_arg (self : SubProcOperation) (arg : String) : SubProcOperation :=
  { self with args := self.args ++ [arg] }

/-- Pushing a list of per-operation args one at a time. -/
def push_args (self : SubProcOperation) (as_ : List String) : SubProcOperation :=
  as_.foldl push_arg self

/-- `FilesPrep::set_input_file` (via the FilesTransformationPrep derive). -/
def set_input_file (self : SubProcOperation) (f : FileArg) : SubProcOperation :=
  { self with files := self.files.set_input_file f }

/-- `FilesPrep::add_input_file` (via the FilesTransformationPrep derive). -/
def add_input_file (self : SubProcOperation) (f : FileArg) : SubProcOperation :=
  { self with files := self.files.add_input_file f }

/-- `FilesPrep::set_output_file` (via the FilesTransformationPrep derive). -/
def set_output_file (self : SubProcOperation) (f : FileArg) : SubProcOperation :=
  { self with files := self.files.set_output_file f }

/-- `FilesPrep::set_dir` (via the FilesTransformationPrep derive). -/
def set_dir (self : SubProcOperation) (d : String) : SubProcOperation :=
  { self with files := self.files.set_dir d }

/-- Translation of `SubProcOperation::emit_output_file_first`
(src/operations/subproc.rs lines 251-262). -/
def emit_output_file_first (self : SubProcOperation) : Bool :=
  match self.exec.out_file with
  | .option _ =>
    match self.exec.inp_file with
    | .append => true
    | _ => false
  | _ => false

/-- Translation of `SubProcOperation::setup_exe_file`
(src/operations/subproc.rs lines 268-312): resolves the candidate file
per the `ExeFileSpec` and appends its contribution to the argument list. -/
def setup_exe_file (c : Collector) (st : ExecSt) (args : List String)
    (cwd : Option String) (spec : ExeFileSpec) (candidate : FileArg)
    (on_missing : Except Err ActualFile) :
    ExecSt × Except Err (List String × ActualFile) :=
  match spec with
  | .noFileUsed => (st, .ok (args, .noActualFile))
  | .append =>
    match setup_file c st candidate on_missing with
    | (st', .error e) => (st', .error e)
    | (st', .ok sf) =>
      match sf.to_paths none with
      | .error e => (st', .error e)
      | .ok pths => (st', .ok (args ++ pths, sf))
  | .option optflag =>
    match setup_file c st candidate on_missing with
    | (st', .error e) => (st', .error e)
    | (st', .ok sf) =>
      match sf.to_paths none with
      | .error e => (st', .error e)
      | .ok pths =>
        if endsWithEq optflag then
          (st', .ok (args ++ [optflag ++ String.intercalate "," pths], sf))
        else
          (st', .ok (args ++ [optflag, String.intercalate "," pths], sf))
  | .viaCall userfun =>
    match setup_file c st candidate on_missing with
    | (st', .error e) => (st', .error e)
    | (st', .ok sf) =>
      match userfun args cwd sf with
      | .error e => (st', .error e)
      | .ok args' => (st', .ok (args', sf))

/-- The `try_fold` over input files in `cmd_file_setup`: set up each input
in order, accumulating the resolved files with `ActualFile::extend`. -/
def setupInputs (c : Collector) (st : ExecSt) (args : List String)
    (cwd : Option String) (spec : ExeFileSpec) (inps : List FileArg)
    (dfs : ActualFile) : ExecSt × Except Err (List String × ActualFile) :=
  match inps with
  | [] => (st, .ok (args, dfs))
  | inpf :: rest =>
    match setup_exe_file c st args cwd spec inpf (.error .missingFile) with
    | (st', .error e) => (st', .error e)
    | (st', .ok (args', df)) =>
      setupInputs c st' args' cwd spec rest (dfs.extend df)

/-- Translation of `SubProcOperation::cmd_file_setup`
(src/operations/subproc.rs lines 191-245): the output file is set up
before the inputs exactly when `emit_output_file_first` holds. -/
def cmd_file_setup (self : SubProcOperation) (c : Collector) (st : ExecSt)
    (args : List String) (cwd : Option String) :
    ExecSt × Except Err (List String × ActualFile × ActualFile) :=
  if self.emit_output_file_first then
    match setup_exe_file c st args cwd self.exec.out_file
        self.files.out_filename (.error .missingFile) with
    | (st', .error e) => (st', .error e)
    | (st', .ok (args', outfile)) =>
      match setupInputs c st' args' cwd self.exec.inp_file
          self.files.inp_filenames .noActualFile with
      | (st'', .error e) => (st'', .error e)
      | (st'', .ok (args'', inpfiles)) => (st'', .ok (args'', inpfiles, outfile))
  else
    match setupInputs c st args cwd self.exec.inp_file
        self.files.inp_filenames .noActualFile with
    | (st', .error e) => (st', .error e)
    | (st', .ok (args', inpfiles)) =>
      match setup_exe_file c st' args' cwd self.exec.out_file
          self.files.out_filename (.error .missingFile) with
      | (st'', .error e) => (st'', .error e)
      | (st'', .ok (args'', outfile)) => (st'', .ok (args'', inpfiles, outfile))

/-- Translation of `SubProcOperation::finalize_args`: start from a copy of
the operation's args and run `cmd_file_setup` over them. -/
def finalize_args (self : SubProcOperation) (c : Collector) (st : ExecSt)
    (cwd : Option String) :
    ExecSt × Except Err (List String × ActualFile × ActualFile) :=
  cmd_file_setup self c st self.args cwd

/-- The effective-directory computation shared by
`SubProcOperation::run_cmd` and `FunctionOperation::run_with_files`: the
parent directory (if given) joined with the operation's own directory. -/
def resolveFromdir (cwd : Option String) (in_dir : Option String) : Option String :=
  match cwd with
  | some root =>
    match in_dir with
    | some sub => some (pushPath root sub)
    | none => some root
  | none => in_dir

/-- Translation of `SubProcOperation::run_cmd`
(src/operations/subproc.rs lines 317-357). -/
def runCmd (self : SubProcOperation) (c : Collector) (st : ExecSt)
    (cwd : Option String) (outfile : ActualFile) (args : List String) :
    ExecSt × Except Err ActualFile :=
  let fromdir := resolveFromdir cwd self.files.in_dir
  match c.run_executable st self.name self.exec.exe_file args self.env fromdir with
  | (st', .good) => (st', .ok outfile)
  | (st', .runError e) => (st', .error (.executing self.name args e fromdir))
  | (st', .execFailed e) => (st', .error (.cmdSetup self.name args e fromdir))
  | (st', .execError code s) =>
    (st', .error (.runningCmd self.name args code fromdir s))
  | (st', .badDirectory p e) => (st', .error (.badDirectory self.name p e))

/-- Translation of `OpInterface::execute` for `SubProcOperation`. -/
def execute (self : SubProcOperation) (c : Collector) (st : ExecSt)
    (cwd : Option String) : ExecSt × Except Err ActualFile :=
  match finalize_args self c st cwd with
  | (st', .error e) => (st', .error e)
  | (st', .ok (args, _inpfiles, outfile)) => runCmd self c st' cwd outfile args

end SubProcOperation

/- ----------------------------------------------------------------------
   FunctionOperation (src/operations/function.rs)
   ---------------------------------------------------------------------- -/

/-- The `FunctionOperation` struct of src/operations/function.rs; the
callback takes the reference directory and the input and output files. -/
structure FunctionOperation : Type where
  name : String
  call : String → ActualFile → ActualFile → Except Err Unit
  files : FileTransformation

namespace FunctionOperation

/-- `FunctionOperation::calling`. -/
def calling (n : String)
    (f : String → ActualFile → ActualFile → Except Err Unit) : FunctionOperation :=
  { name := n, call := f, files := FileTransformation.new }

/-- `FilesPrep::set_input_file` (via the FilesTransformationPrep derive). -/
def set_input_file (self : FunctionOperation) (f : FileArg) : FunctionOperation :=
  { self with files := self.files.set_input_file f }

/-- `FilesPrep::add_input_file` (via the FilesTransformationPrep derive). -/
def add_input_file (self : FunctionOperation) (f : FileArg) : FunctionOperation :=
  { self with files := self.files.add_input_file f }

/-- `FilesPrep::set_output_file` (via the FilesTransformationPrep derive). -/
def set_output_file (self : FunctionOperation) (f : FileArg) : FunctionOperation :=
  { self with files := self.files.set_output_file f }

/-- `FilesPrep::set_dir` (via the FilesTransformationPrep derive). -/
def set_dir (self : FunctionOperation) (d : String) : FunctionOperation :=
  { self with files := self.files.set_dir d }

/-- The `try_fold` over input files in `FunctionOperation::execute`:
materialize each input with `setup_file`, substituting `NoActualFile` for
a `TBD` input, accumulating with `ActualFile::extend`. -/
def setupFnInputs (c : Collector) (st : ExecSt) (inps : List FileArg)
    (dfs : ActualFile) : ExecSt × Except Err ActualFile :=
  match inps with
  | [] => (st, .ok dfs)
  | inpf :: rest =>
    match setup_file c st inpf (.ok .noActualFile) with
    | (st', .error e) => (st', .error e)
    | (st', .ok df) => setupFnInputs c st' rest (dfs.extend df)

/-- Translation of `FunctionOperation::run_with_files`
(src/operations/function.rs lines 71-110). -/
def run_with_files (self : FunctionOperation) (c : Collector) (st : ExecSt)
    (cwd : Option String) (inpfiles outfile : ActualFile) :
    ExecSt × Except Err ActualFile :=
  let fromdir := SubProcOperation.resolveFromdir cwd self.files.in_dir
  match c.run_function st self.name self.call inpfiles outfile fromdir with
  | (st', .good) => (st', .ok outfile)
  | (st', .execFailed e) => (st', .error (.cmdSetup self.name [] e fromdir))
  | (st', .runError e) => (st', .error (.executing self.name [] e fromdir))
  | (st', .execError code s) =>
    (st', .error (.runningCmd self.name [] code fromdir s))
  | (st', .badDirectory p e) => (st', .error (.badDirectory self.name p e))

/-- Translation of `OpInterface::execute` for `FunctionOperation`
(src/operations/function.rs lines 122-138): both the inputs and the
output are materialized with an `on_missing` continuation returning
`Ok(NoActualFile)`. -/
def execute (self : FunctionOperation) (c : Collector) (st : ExecSt)
    (cwd : Option String) : ExecSt × Except Err ActualFile :=
  match setupFnInputs c st self.files.inp_filenames .noActualFile with
  | (st', .error e) => (st', .error e)
  | (st', .ok inpfiles) =>
    match setup_file c st' self.files.out_filename (.ok .noActualFile) with
    | (st'', .error e) => (st'', .error e)
    | (st'', .ok outfile) => run_with_files self c st'' cwd inpfiles outfile

end FunctionOperation

/- ----------------------------------------------------------------------
   Chained operations (src/operations/chained.rs)
   ---------------------------------------------------------------------- -/

/-- The `Activation` enum of src/operations/chained.rs. -/
inductive Activation : Type where
  | enabled
  | disabled
deriving DecidableEq, Repr

/-- The `RunnableOp` enum of src/operations/chained.rs: either a
subprocess operation or a function operation. -/
inductive RunnableOp : Type where
  | exec (sp : SubProcOperation)
  | call (fp : FunctionOperation)

namespace RunnableOp

/-- `OpInterface::label` pass-through. -/
def label : RunnableOp → String
  | .exec sp => sp.name
  | .call fp => fp.name

/-- Whether the op is the subprocess variant (used to identify what kind
of executor call it produces). -/
def isExec : RunnableOp → Bool
  | .exec _ => true
  | .call _ => false

/-- `FilesPrep::set_input_file` pass-through. -/
def set_input_file : RunnableOp → FileArg → RunnableOp
  | .exec sp, f => .exec (sp.set_input_file f)
  | .call fp, f => .call (fp.set_input_file f)

/-- `FilesPrep::add_input_file` pass-through. -/
def add_input_file : RunnableOp → FileArg → RunnableOp
  | .exec sp, f => .exec (sp.add_input_file f)
  | .call fp, f => .call (fp.add_input_file f)

/-- `FilesPrep::set_output_file` pass-through. -/
def set_output_file : RunnableOp → FileArg → RunnableOp
  | .exec sp, f => .exec (sp.set_output_file f)
  | .call fp, f => .call (fp.set_output_file f)

/-- The configured input file list of the op. -/
def inputs : RunnableOp → List FileArg
  | .exec sp => sp.files.inp_filenames
  | .call fp => fp.files.inp_filenames

/-- `OpInterface::execute` pass-through. -/
def execute : RunnableOp → Collector → ExecSt → Option String →
    ExecSt × Except Err ActualFile
  | .exec sp, c, st, cwd => sp.execute c st cwd
  | .call fp, c, st, cwd => fp.execute c st cwd

end RunnableOp

/-- A placeholder op used to totalize list indexing (the Rust code only
indexes with indices produced by `enumerate`, which are always in
bounds). -/
def defaultOp : RunnableOp :=
  .call (FunctionOperation.calling "" (fun _ _ _ => .ok ()))

/-- In-place update `chops[i].set_input_file(f)` on the chain vector. -/
def setInputAt (chain : List RunnableOp) (i : Nat) (f : FileArg) :
    List RunnableOp :=
  chain.set i ((chain.getD i defaultOp).set_input_file f)

/-- In-place update `chops[i].add_input_file(f)` on the chain vector. -/
def addInputAt (chain : List RunnableOp) (i : Nat) (f : FileArg) :
    List RunnableOp :=
  chain.set i ((chain.getD i defaultOp).add_input_file f)

/-- In-place update `chops[i].set_output_file(f)` on the chain vector. -/
def setOutputAt (chain : List RunnableOp) (i : Nat) (f : FileArg) :
    List RunnableOp :=
  chain.set i ((chain.getD i defaultOp).set_output_file f)

/-- The `ChainedOpsInternals` struct of src/operations/chained.rs: the
`HashMap<usize, Activation>` is modelled as an association list and the
`preset_inputs` vector as a list of indices. -/
structure ChainedOpsModel : Type where
  name : String
  chain : List RunnableOp
  files : FileTransformation
  opstate : List (Nat × Activation)
  preset_inputs : List Nat

/-- First-match lookup in the activation map (`HashMap::get`). -/
def lookupState : List (Nat × Activation) → Nat → Option Activation
  | [], _ => none
  | (k, v) :: rest, key => if k = key then some v else lookupState rest key

/-- The enabled-index computation of `ChainedOps::execute`
(src/operations/chained.rs lines 384-390): indices whose activation state
defaults to `Enabled`, in chain order.  (The Rust code stores this list
reversed and pops indices off the end of the vector, which traverses the
same order.) -/
def enabledIdxs (cm : ChainedOpsModel) : List Nat :=
  ((List.range cm.chain.length).filter
    (fun i => (lookupState cm.opstate i).getD .enabled = .enabled))

/-- The input-threading step of `execute_chain` (src/operations/chained.rs
lines 443-460): if the completed operation produced paths `ps` and the
next operation (the head of the remaining index list; `op_idxs.last()` in
the reversed Rust vector) is not preset, replace its input list —
`ps.pop()` removes and returns the LAST path, which becomes the
`set_input_file` argument, and the remaining paths are then appended in
order.  An empty `ps` leaves the chain untouched. -/
def threadInputs (chain : List RunnableOp) (rest : List Nat)
    (ps : List String) (preset_inputs : List Nat) : List RunnableOp :=
  if ps.isEmpty then chain
  else if preset_inputs.contains (rest.headD 0) then chain
  else
    ps.dropLast.foldl (fun ch p => addInputAt ch (rest.headD 0) (.loc p))
      (setInputAt chain (rest.headD 0) (.loc (ps.getLastD "")))

/-- Translation of `execute_chain` (src/operations/chained.rs lines
427-473), with the op-index list in execution order (see `enabledIdxs`).
The mutated chain vector is returned alongside the executor state and the
result; the empty-index case is unreachable from `ChainedOps::execute`
(Rust would panic on `unwrap`).  The Rust code matches the root cause of a
path-extraction failure against `ErrorMissingFile`, modelled here as an
equality test on the error. -/
def execute_chain (c : Collector) (chain : List RunnableOp)
    (preset_inputs : List Nat) (cwd : Option String) (op_idxs : List Nat)
    (st : ExecSt) : ExecSt × List RunnableOp × Except Err ActualFile :=
  match op_idxs with
  | [] => (st, chain, .error .invalidOperation)
  | op_idx :: rest =>
    match (chain.getD op_idx defaultOp).execute c st cwd with
    | (st', .error e) => (st', chain, .error e)
    | (st', .ok outfile) =>
      if rest.isEmpty then
        -- This was the last operation; execution of the chain is complete.
        (st', chain, .ok outfile)
      else
        match outfile.to_paths none with
        | .ok ps =>
          execute_chain c (threadInputs chain rest ps preset_inputs)
            preset_inputs cwd rest st'
        | .error e =>
          if e = .missingFile then
            -- The completed operation produced no output file; the next
            -- operation's input is left as configured.
            execute_chain c chain preset_inputs cwd rest st'
          else (st', chain, .error e)

/-- Step 4 of `ChainedOps::execute`: if the chain has its own input file
list, replace the first enabled stage's input list with it (setting the
first, adding the rest). -/
def chainWithInputs (chain : List RunnableOp) (first_op : Nat)
    (chain_inps : List FileArg) : List RunnableOp :=
  match chain_inps with
  | [] => chain
  | f0 :: fs =>
    fs.foldl (fun ch f => addInputAt ch first_op f)
      (setInputAt chain first_op f0)

/-- Step 5 of `ChainedOps::execute`: if the chain has an explicit output
file (`Loc`), overwrite the last enabled stage's output. -/
def chainWithOutput (chain : List RunnableOp) (last_op : Nat)
    (files : FileTransformation) : List RunnableOp :=
  if files.has_explicit_output_file then
    setOutputAt chain last_op files.out_filename
  else chain

/-- The chain-level effective-directory computation of
`ChainedOps::execute` (src/operations/chained.rs lines 408-415). -/
def chainTgtdir (cwd : Option String) (in_dir : Option String) : Option String :=
  match cwd with
  | none => in_dir
  | some d =>
    match in_dir with
    | some od => some (pushPath d od)
    | none => some d

/-- Translation of `OpInterface::execute` for `ChainedOps`
(src/operations/chained.rs lines 367-424); the serialization lock is a
concurrency artifact with no effect on the sequential semantics. -/
def ChainedOps.execute (cm : ChainedOpsModel) (c : Collector) (st : ExecSt)
    (cwd : Option String) : ExecSt × List RunnableOp × Except Err ActualFile :=
  if (enabledIdxs cm).isEmpty then
    -- Non-functional chain (empty or fully disabled): no output file.
    (st, cm.chain, .ok .noActualFile)
  else
    execute_chain c
      (chainWithOutput
        (chainWithInputs cm.chain ((enabledIdxs cm).headD 0)
          cm.files.inp_filenames)
        ((enabledIdxs cm).getLastD 0) cm.files)
      cm.preset_inputs (chainTgtdir cwd cm.files.in_dir) (enabledIdxs cm) st

/- ----------------------------------------------------------------------
   Helper definitions for the theorems
   ---------------------------------------------------------------------- -/

/-- Decidable equality for `Except` results, so concrete runs can be
checked by `decide`. -/
instance {ε α : Type} [DecidableEq ε] [DecidableEq α] : DecidableEq (Except ε α)
  | .ok a, .ok b =>
    if h : a = b then .isTrue (by rw [h])
    else .isFalse (fun hh => h (Except.ok.inj hh))
  | .ok _, .error _ => .isFalse (fun hh => Except.noConfusion hh)
  | .error _, .ok _ => .isFalse (fun hh => Except.noConfusion hh)
  | .error a, .error b =>
    if h : a = b then .isTrue (by rw [h])
    else .isFalse (fun hh => h (Except.error.inj hh))

/-- The list of paths denoted by an `ActualFile` (the value `to_paths`
returns on success, and `[]` for `NoActualFile`). -/
def pathList (cwd : Option String) : ActualFile → List String
  | .noActualFile => []
  | .singleFile f => [ActualFile.get_path cwd f]
  | .multiFile fs => fs.map (ActualFile.get_path cwd)

/-- An executor state with nothing recorded. -/
def emptySt : ExecSt := { trace := [], nextTemp := 0 }

/-- The dry-run-style collector: glob searches return no matches. -/
def dryColl : Collector := { globs := fun _ => [] }

/- ----------------------------------------------------------------------
   C1
   ---------------------------------------------------------------------- -/

/-- C1: the claim states that realizing an `EnvSpec` applies the mutations
from the innermost terminator outward, so the outermost mutation wins, and
that `Append`/`Prepend` against a missing working-environment variable
create it with just the given value.  The code's `update_env` instead
applies the outermost node to the `Command` first; since `Command`
environment operations are last-write-wins, the innermost node wins, and
in particular a `BlankEnv` terminator executes `env_clear` last, erasing
every variable the spec added: `BlankEnv.add("x","1")` realizes to an
empty environment where the claim requires `x=1`.  Moreover
`Append`/`Prepend` consult the parent process environment rather than the
working environment: `StdEnv.prepend("v","a",":").append("v","b",":")`
with `v` absent from the parent realizes to `v="a"` where the claim's
innermost-outward traversal gives `v="a:b"`. -/
theorem c1_update_env_applies_outermost_first :
    (update_env [("HOME", "h")] CommandEnv.init
        (EnvSpec.blankEnv.add "x" "1")).realize [("HOME", "h")] "x" = none
    ∧ lookupA (specRealizeEnv [("HOME", "h")] (EnvSpec.blankEnv.add "x" "1")) "x"
        = some "1"
    ∧ (update_env [] CommandEnv.init
        ((EnvSpec.stdEnv.prepend "v" "a" ":").append "v" "b" ":")).realize [] "v"
        = some "a"
    ∧ lookupA (specRealizeEnv []
        ((EnvSpec.stdEnv.prepend "v" "a" ":").append "v" "b" ":")) "v"
        = some "a:b" := by decide

/- ----------------------------------------------------------------------
   C2
   ---------------------------------------------------------------------- -/

/-- C2 (counterexample): the claim states that the path list of
`extend(a, b)` is the path list of `a` followed by the path list of `b`.
For `a = Single(x)` and `b = Multi([y])` the code pushes the single file
of `a` onto the end of `b`'s vector, so the path list is `["y", "x"]`,
not `["x", "y"]`. -/
theorem c2_extend_single_multi_counterexample :
    ((ActualFile.singleFile (.staticFile "x")).extend
        (.multiFile [.staticFile "y"])).to_paths none = .ok ["y", "x"]
    ∧ (Except.ok ["y", "x"] : Except Err (List String)) ≠ .ok ["x", "y"] := by
  decide

/-- C2 (amended): `extend(None, x) = x`, `extend(x, None) = x`,
`extend(Multi(a), Multi(b)) = Multi(a ++ b)`, and file counts always sum;
the path list of `extend(x, y)` (as returned by `to_paths`) is the path
list of `x` followed by the path list of `y` in every case except
`x = Single(_)` with `y = Multi(_)` nonempty, where the code appends the
single file after the multi's entries, yielding the path list of `y`
followed by the path list of `x`. -/
theorem c2_extend_concat_amended :
    ∀ (x y : ActualFile) (a b : List FileRef) (f : FileRef) (cwd : Option String),
      ActualFile.extend .noActualFile x = x
      ∧ ActualFile.extend x .noActualFile = x
      ∧ ActualFile.extend (.multiFile a) (.multiFile b) = .multiFile (a ++ b)
      ∧ (x.extend y).num_files = x.num_files + y.num_files
      ∧ (ActualFile.singleFile f).to_paths cwd = .ok (pathList cwd (.singleFile f))
      ∧ (ActualFile.multiFile a).to_paths cwd = .ok (pathList cwd (.multiFile a))
      ∧ pathList cwd (x.extend y) =
          (match x, y with
           | .singleFile _, .multiFile (_ :: _) => pathList cwd y ++ pathList cwd x
           | _, _ => pathList cwd x ++ pathList cwd y) := by
  intro x y a b f cwd
  refine ⟨rfl, ?_, rfl, ?_, rfl, rfl, ?_⟩
  · cases x <;> rfl
  · cases x <;> cases y <;>
      simp [ActualFile.extend, ActualFile.num_files, Nat.add_comm]
  · cases x with
    | noActualFile => cases y <;> simp [ActualFile.extend, pathList]
    | singleFile fx =>
      cases y with
      | noActualFile => simp [ActualFile.extend, pathList]
      | singleFile fy => simp [ActualFile.extend, pathList]
      | multiFile fs => cases fs <;> simp [ActualFile.extend, pathList]
    | multiFile fsx => cases y <;> simp [ActualFile.extend, pathList]

/- ----------------------------------------------------------------------
   C3
   ---------------------------------------------------------------------- -/

/-- C3 (counterexample): the claim states that materializing a `GlobIn`
whose glob search returns zero paths never yields a `MultiFile` with an
empty vector.  Under the dry-run glob behaviour (no matches) `setup_file`
wraps the empty result directly, producing `MultiFile([])` rather than
`NoActualFile`. -/
theorem c3_empty_glob_counterexample :
    setup_file dryColl emptySt (.globIn "build" "*.test_out") (.error .missingFile)
      = (emptySt, .ok (.multiFile []))
    ∧ (ActualFile.multiFile []).num_files = 0
    ∧ ActualFile.multiFile [] ≠ ActualFile.noActualFile := by decide

/-- C3 (amended): materializing `GlobIn(d, pat)` always yields
`MultiFile` of the glob results for the pattern `d ++ "/" ++ pat` wrapped
as static files — in particular the empty glob result yields
`MultiFile([])`, so the `Multi` has-at-least-one-entry invariant does not
hold for glob materialization. -/
theorem c3_glob_materialization_amended :
    ∀ (c : Collector) (st : ExecSt) (d pat : String) (om : Except Err ActualFile),
      setup_file c st (.globIn d pat) om
        = (st, .ok (.multiFile ((c.globs (d ++ "/" ++ pat)).map .staticFile))) := by
  intro c st d pat om
  rfl

/- ----------------------------------------------------------------------
   C4
   ---------------------------------------------------------------------- -/

/-- C4 (code bug evidence): the claim (and the invariants documented on
the `EnvSpec` enum itself) require that below an `Add(v)` node no further
node references `v`.  The `elide` sweep stops at the first matching node,
so when a spec legally holds both a `Prepend(v)` and an `Append(v)`
(allowed: one of each per variable), a subsequent `add(v, …)` elides only
the outer of the two:
`BlankEnv.prepend("bar","p","*").append("bar","a","-").add("bar","X")`
produces `EnvAdd("bar", "X", EnvPrepend("bar", "p", "*", BlankEnv))`,
whose sub-spec still references `"bar"`, violating the invariant. -/
theorem c4_elide_leaves_reference_below_add :
    (((EnvSpec.blankEnv.prepend "bar" "p" "*").append "bar" "a" "-").add "bar" "X")
      = .envAdd "bar" "X" (.envPrepend "bar" "p" "*" .blankEnv)
    ∧ EnvSpec.refsVar (.envPrepend "bar" "p" "*" .blankEnv) "bar" = true
    ∧ EnvSpec.nf
        (((EnvSpec.blankEnv.prepend "bar" "p" "*").append "bar" "a" "-").add "bar" "X")
        = false := by decide

/- ----------------------------------------------------------------------
   C5
   ---------------------------------------------------------------------- -/

/-- Collector for the C5 scenario: the glob for the first stage's output
pattern resolves to two paths. -/
def c5_collector : Collector :=
  { globs := fun pat => if pat = "d/*.o" then ["p1", "p2"] else [] }

/-- First stage of the C5 scenario: no input file consumed, output files
appended, output configured as a glob resolving to two paths. -/
def c5_op1 : SubProcOperation :=
  (SubProcOperation.new (Executable.new "one" .noFileUsed .append)).set_output_file
    (.globIn "d" "*.o")

/-- Second stage of the C5 scenario: input files appended, no preset
input. -/
def c5_op2 : SubProcOperation :=
  SubProcOperation.new (Executable.new "two" .append .noFileUsed)

/-- The two-stage chain of the C5 scenario. -/
def c5_chain : ChainedOpsModel :=
  { name := "c5"
    chain := [.exec c5_op1, .exec c5_op2]
    files := FileTransformation.new
    opstate := []
    preset_inputs := [] }

/-- C5 (code bug evidence): the claim states that the following stage's
input file list is replaced by the preceding stage's output path list,
each wrapped as `Loc`.  The first stage's output materializes to paths
`["p1", "p2"]`, but `execute_chain` threads them with `ps.pop()` (the
LAST path) as `set_input_file` followed by the remaining paths, so the
second stage observes `[Loc "p2", Loc "p1"]` — a rotation of the output
path list — and its appended input arguments are `["p2", "p1"]`. -/
theorem c5_threading_rotates_multi_path_output :
    ((ChainedOps.execute c5_chain c5_collector emptySt none).2.1.map
        RunnableOp.inputs)
      = [[], [.loc "p2", .loc "p1"]]
    ∧ (ChainedOps.execute c5_chain c5_collector emptySt none).1.trace
      = [.runExec "one" "one" ["p1", "p2"] .stdEnv none,
         .runExec "two" "two" ["p2", "p1"] .stdEnv none]
    ∧ [FileArg.loc "p2", FileArg.loc "p1"] ≠ [FileArg.loc "p1", FileArg.loc "p2"]
    := by decide

/- ----------------------------------------------------------------------
   C7 / C8: argument materialization order for subprocess stages
   ---------------------------------------------------------------------- -/

/-- Whether an `ExeFileSpec` is the `ViaCall` variant (whose callback may
rewrite the argument vector arbitrarily). -/
def ExeFileSpec.isViaCall : ExeFileSpec → Bool
  | .viaCall _ => true
  | _ => false

/-- The argument-list contribution of a non-`ViaCall` file spec for a
given resolved path list: nothing for `NoFileUsed`, the paths themselves
for `Append`, and the flag plus comma-joined paths (one argument if the
flag ends in `=`, two otherwise) for `Option`. -/
def contribOf : ExeFileSpec → List String → List String
  | .noFileUsed, _ => []
  | .append, ps => ps
  | .option flag, ps =>
    if endsWithEq flag then [flag ++ String.intercalate "," ps]
    else [flag, String.intercalate "," ps]
  | .viaCall _, _ => []

/-- A successful `to_paths` returns exactly the `pathList` of the file. -/
theorem to_paths_ok_pathList (sf : ActualFile) (cwd : Option String)
    (ps : List String) (h : sf.to_paths cwd = .ok ps) : ps = pathList cwd sf := by
  cases sf with
  | noActualFile => simp [ActualFile.to_paths] at h
  | singleFile f =>
    simp [ActualFile.to_paths] at h
    simp [pathList, ← h]
  | multiFile fs =>
    simp [ActualFile.to_paths] at h
    simp [pathList, ← h]

/-- A successful `setup_exe_file` with a non-`ViaCall` spec appends
exactly the spec's contribution for the resolved file's paths. -/
theorem setup_exe_file_appends (c : Collector) (st st' : ExecSt)
    (args args' : List String) (cwd : Option String) (spec : ExeFileSpec)
    (cand : FileArg) (om : Except Err ActualFile) (sf : ActualFile)
    (hnv : spec.isViaCall = false)
    (h : SubProcOperation.setup_exe_file c st args cwd spec cand om
          = (st', .ok (args', sf))) :
    args' = args ++ contribOf spec (pathList none sf) := by
  cases spec with
  | noFileUsed =>
    simp only [SubProcOperation.setup_exe_file, Prod.mk.injEq,
      Except.ok.injEq] at h
    obtain ⟨-, hargs, hsf⟩ := h
    simp [← hargs, ← hsf, contribOf, pathList]
  | append =>
    simp only [SubProcOperation.setup_exe_file] at h
    cases h1 : setup_file c st cand om with
    | mk st1 r1 =>
      rw [h1] at h
      cases r1 with
      | error e => simp at h
      | ok sf1 =>
        simp only at h
        cases h2 : sf1.to_paths none with
        | error e => rw [h2] at h; simp at h
        | ok pths =>
          rw [h2] at h
          simp only [Prod.mk.injEq, Except.ok.injEq] at h
          obtain ⟨-, hargs, hsf⟩ := h
          simp [← hargs, ← hsf, to_paths_ok_pathList sf1 none pths h2,
            contribOf]
  | option flag =>
    simp only [SubProcOperation.setup_exe_file] at h
    cases h1 : setup_file c st cand om with
    | mk st1 r1 =>
      rw [h1] at h
      cases r1 with
      | error e => simp at h
      | ok sf1 =>
        simp only at h
        cases h2 : sf1.to_paths none with
        | error e => rw [h2] at h; simp at h
        | ok pths =>
          rw [h2] at h
          by_cases hf : endsWithEq flag
          · simp only [hf, if_true, Prod.mk.injEq, Except.ok.injEq] at h
            obtain ⟨-, hargs, hsf⟩ := h
            simp [← hargs, ← hsf, to_paths_ok_pathList sf1 none pths h2,
              contribOf, hf]
          · simp only [hf, if_false, Bool.false_eq_true, Prod.mk.injEq,
              Except.ok.injEq] at h
            obtain ⟨-, hargs, hsf⟩ := h
            simp [← hargs, ← hsf, to_paths_ok_pathList sf1 none pths h2,
              contribOf, hf]
  | viaCall f => simp [ExeFileSpec.isViaCall] at hnv

/-- A successful input-file fold with a non-`ViaCall` spec only appends to
the argument list. -/
theorem setupInputs_appends (c : Collector) (spec : ExeFileSpec)
    (hnv : spec.isViaCall = false) :
    ∀ (inps : List FileArg) (st st' : ExecSt) (args args' : List String)
      (cwd : Option String) (acc acc' : ActualFile),
      SubProcOperation.setupInputs c st args cwd spec inps acc
        = (st', .ok (args', acc')) →
      ∃ d, args' = args ++ d := by
  intro inps
  induction inps with
  | nil =>
    intro st st' args args' cwd acc acc' h
    simp [SubProcOperation.setupInputs] at h
    exact ⟨[], by simp [h.2.1]⟩
  | cons f rest ih =>
    intro st st' args args' cwd acc acc' h
    simp only [SubProcOperation.setupInputs] at h
    cases h1 : SubProcOperation.setup_exe_file c st args cwd spec f
        (.error .missingFile) with
    | mk st1 r1 =>
      rw [h1] at h
      cases r1 with
      | error e => simp at h
      | ok p =>
        obtain ⟨args1, df⟩ := p
        simp only at h
        obtain ⟨d, hd⟩ := ih st1 st' args1 args' cwd (acc.extend df) acc' h
        have h2 := setup_exe_file_appends c st st1 args args1 cwd spec f
          (.error .missingFile) df hnv h1
        exact ⟨contribOf spec (pathList none df) ++ d, by
          rw [hd, h2, List.append_assoc]⟩

/-- C7: for a subprocess stage, per-operation args follow the template's
base args (by construction of `new`/`push_arg`); the output contribution
is emitted before the input contribution exactly when the output spec is
`Option(_)` and the input spec is `Append`; and in a successful file
setup with non-`ViaCall` specs the final argument list is the initial
args followed by the input contributions and then the output
contribution — or the output contribution first when the emit-output-first
rule fires. -/
theorem c7_arg_order :
    (∀ (exe : Executable) (extra : List String),
        ((SubProcOperation.new exe).push_args extra).args = exe.base_args ++ extra)
    ∧ (∀ (op : SubProcOperation),
        op.emit_output_file_first = true ↔
          ((∃ flag, op.exec.out_file = .option flag)
            ∧ op.exec.inp_file = .append))
    ∧ (∀ (op : SubProcOperation) (c : Collector) (st st' : ExecSt)
          (args0 argsF : List String) (cwd : Option String)
          (inf outf : ActualFile),
          op.exec.inp_file.isViaCall = false →
          op.exec.out_file.isViaCall = false →
          op.cmd_file_setup c st args0 cwd = (st', .ok (argsF, inf, outf)) →
          ∃ inC,
            argsF =
              if op.emit_output_file_first then
                args0 ++ contribOf op.exec.out_file (pathList none outf) ++ inC
              else
                args0 ++ inC ++ contribOf op.exec.out_file (pathList none outf)) := by
  refine ⟨?_, ?_, ?_⟩
  · intro exe extra
    have base : ∀ (l : List String) (sp : SubProcOperation),
        (sp.push_args l).args = sp.args ++ l := by
      intro l
      induction l with
      | nil => intro sp; simp [SubProcOperation.push_args]
      | cons a rest ih =>
        intro sp
        simp [SubProcOperation.push_args] at ih ⊢
        rw [ih]
        simp [SubProcOperation.push_arg]
    rw [base extra (SubProcOperation.new exe)]
    rfl
  · intro op
    cases hout : op.exec.out_file <;> cases hinp : op.exec.inp_file <;>
      simp [SubProcOperation.emit_output_file_first, hout, hinp]
  · intro op c st st' args0 argsF cwd inf outf hinv houtv h
    simp only [SubProcOperation.cmd_file_setup] at h
    by_cases hemit : op.emit_output_file_first = true
    · rw [if_pos hemit] at h
      cases h1 : SubProcOperation.setup_exe_file c st args0 cwd op.exec.out_file
          op.files.out_filename (.error .missingFile) with
      | mk st1 r1 =>
        rw [h1] at h
        cases r1 with
        | error e => simp at h
        | ok p =>
          obtain ⟨args1, outf1⟩ := p
          simp only at h
          cases h2 : SubProcOperation.setupInputs c st1 args1 cwd
              op.exec.inp_file op.files.inp_filenames .noActualFile with
          | mk st2 r2 =>
            rw [h2] at h
            cases r2 with
            | error e => simp at h
            | ok q =>
              obtain ⟨args2, inf1⟩ := q
              simp only [Prod.mk.injEq, Except.ok.injEq] at h
              have hargs : args2 = argsF := h.2.1
              have houtf : outf1 = outf := h.2.2.2
              obtain ⟨d, hd⟩ := setupInputs_appends c op.exec.inp_file hinv
                op.files.inp_filenames st1 st2 args1 args2 cwd .noActualFile inf1 h2
              have hout1 := setup_exe_file_appends c st st1 args0 args1 cwd
                op.exec.out_file op.files.out_filename (.error .missingFile)
                outf1 houtv h1
              refine ⟨d, ?_⟩
              rw [if_pos hemit, ← hargs, hd, hout1, houtf, List.append_assoc]
    · rw [if_neg hemit] at h
      cases h1 : SubProcOperation.setupInputs c st args0 cwd
          op.exec.inp_file op.files.inp_filenames .noActualFile with
      | mk st1 r1 =>
        rw [h1] at h
        cases r1 with
        | error e => simp at h
        | ok p =>
          obtain ⟨args1, inf1⟩ := p
          simp only at h
          cases h2 : SubProcOperation.setup_exe_file c st1 args1 cwd
              op.exec.out_file op.files.out_filename (.error .missingFile) with
          | mk st2 r2 =>
            rw [h2] at h
            cases r2 with
            | error e => simp at h
            | ok q =>
              obtain ⟨args2, outf1⟩ := q
              simp only [Prod.mk.injEq, Except.ok.injEq] at h
              have hargs : args2 = argsF := h.2.1
              have houtf : outf1 = outf := h.2.2.2
              obtain ⟨d, hd⟩ := setupInputs_appends c op.exec.inp_file hinv
                op.files.inp_filenames st st1 args0 args1 cwd .noActualFile inf1 h1
              have hout1 := setup_exe_file_appends c st1 st2 args1 args2 cwd
                op.exec.out_file op.files.out_filename (.error .missingFile)
                outf1 houtv h2
              refine ⟨d, ?_⟩
              rw [if_neg hemit, ← hargs, hout1, hd, houtf, List.append_assoc]

/-- The subprocess operation used to witness C7: output spec
`Option("-o")`, input spec `Append` (the emit-output-first case). -/
def c7_op : SubProcOperation :=
  (((SubProcOperation.new (Executable.new "test-cmd" .append
      (.option "-o"))).set_input_file (.loc "a.c")).set_output_file
    (.loc "b.o")).push_arg "-x"

/-- Witness for C7: instantiating the order theorem at a concrete
operation whose file setup evaluates to `["-x", "-o", "b.o", "a.c"]`. -/
theorem c7_arg_order_witness :
    ∃ inC,
      (["-x", "-o", "b.o", "a.c"] : List String) =
        if c7_op.emit_output_file_first then
          ["-x"] ++ contribOf c7_op.exec.out_file
            (pathList none (.singleFile (.staticFile "b.o"))) ++ inC
        else
          ["-x"] ++ inC ++ contribOf c7_op.exec.out_file
            (pathList none (.singleFile (.staticFile "b.o"))) :=
  c7_arg_order.2.2 c7_op dryColl emptySt emptySt ["-x"]
    ["-x", "-o", "b.o", "a.c"] none (.singleFile (.staticFile "a.c"))
    (.singleFile (.staticFile "b.o")) rfl rfl (by decide)

/-- The subprocess operation of the C8 scenario: output spec
`Option("-file=")` (flag ending in `=`), input spec `Append`. -/
def c8_op : SubProcOperation :=
  ((SubProcOperation.new (Executable.new "cc" .append
      (.option "-file="))).set_input_file (.loc "in.c")).set_output_file
    (.loc "out.o")

/-- C8: an `Option(flag)` file contribution is one argument
`flag ++ join(",", paths)` when the flag ends in `=`, and the two
arguments `flag`, `join(",", paths)` otherwise; and in the concrete
scenario `output = Option("-file=")`, `input = Append`, the single joined
output argument is emitted before the input path: the final argument list
is `["-file=out.o", "in.c"]`. -/
theorem c8_option_flag_contribution :
    (∀ (c : Collector) (st st' : ExecSt) (args args' : List String)
        (cwd : Option String) (flag : String) (cand : FileArg)
        (om : Except Err ActualFile) (sf : ActualFile),
        SubProcOperation.setup_exe_file c st args cwd (.option flag) cand om
          = (st', .ok (args', sf)) →
        args' = args ++
          (if endsWithEq flag then
            [flag ++ String.intercalate "," (pathList none sf)]
          else [flag, String.intercalate "," (pathList none sf)]))
    ∧ SubProcOperation.finalize_args c8_op dryColl emptySt none
        = (emptySt, .ok (["-file=out.o", "in.c"],
            .singleFile (.staticFile "in.c"),
            .singleFile (.staticFile "out.o"))) := by
  constructor
  · intro c st st' args args' cwd flag cand om sf h
    have := setup_exe_file_appends c st st' args args' cwd (.option flag)
      cand om sf rfl h
    rw [this, contribOf]
  · decide

/-- Witness for C8: instantiating the `Option` contribution theorem at a
concrete flag not ending in `=` and a single static file. -/
theorem c8_option_flag_contribution_witness :
    (["-f", "z"] : List String) =
      [] ++
        (if endsWithEq "-f" then
          ["-f" ++ String.intercalate ","
            (pathList none (.singleFile (.staticFile "z")))]
        else ["-f", String.intercalate ","
            (pathList none (.singleFile (.staticFile "z")))]) :=
  c8_option_flag_contribution.1 dryColl emptySt emptySt [] ["-f", "z"] none
    "-f" (.loc "z") (.error .missingFile) (.singleFile (.staticFile "z"))
    (by decide)

/- ----------------------------------------------------------------------
   C10: TBD files for function stages vs subprocess stages
   ---------------------------------------------------------------------- -/

/-- C10: a `FunctionOperation` whose input list and output are still
`TBD` executes successfully — the materialization substitutes
`NoActualFile` for each `TBD` and the executor's `run_function` is handed
`NoActualFile` for both inputs and output — whereas a subprocess stage
whose `Append`-spec'd input is still `TBD` aborts with `MissingFile`
before the executor is ever invoked. -/
theorem c10_function_op_tbd_files :
    (∀ (nm : String) (fcall : String → ActualFile → ActualFile → Except Err Unit)
        (dir : Option String) (c : Collector) (st : ExecSt) (cwd : Option String),
        FunctionOperation.execute
          { name := nm, call := fcall,
            files := { inp_filenames := [.tbd], out_filename := .tbd,
                       in_dir := dir } } c st cwd
          = ({ st with trace := st.trace ++
                [.runFunc nm .noActualFile .noActualFile
                  (SubProcOperation.resolveFromdir cwd dir)] },
             .ok .noActualFile))
    ∧ (∀ (sp : SubProcOperation) (c : Collector) (st : ExecSt) (cwd : Option String),
        sp.exec.inp_file = .append →
        sp.files.inp_filenames = [.tbd] →
        sp.emit_output_file_first = false →
        sp.execute c st cwd = (st, .error .missingFile)) := by
  constructor
  · intro nm fcall dir c st cwd
    rfl
  · intro sp c st cwd hin hfiles hemit
    simp [SubProcOperation.execute, SubProcOperation.finalize_args,
      SubProcOperation.cmd_file_setup, hemit, hin, hfiles,
      SubProcOperation.setupInputs, SubProcOperation.setup_exe_file, setup_file]

/-- Witness for C10: a concrete function stage with `TBD` files executes
and hands `NoActualFile` to the executor, while a concrete subprocess
stage with a `TBD` input aborts with `MissingFile`. -/
theorem c10_function_op_tbd_files_witness :
    FunctionOperation.execute
      { name := "f1", call := fun _ _ _ => .ok (),
        files := { inp_filenames := [.tbd], out_filename := .tbd,
                   in_dir := none } } dryColl emptySt none
      = ({ emptySt with trace := emptySt.trace ++
            [.runFunc "f1" .noActualFile .noActualFile
              (SubProcOperation.resolveFromdir none none)] },
         .ok .noActualFile)
    ∧ SubProcOperation.execute
        ((SubProcOperation.new (Executable.new "sub" .append
            .noFileUsed)).set_input_file .tbd) dryColl emptySt none
      = (emptySt, .error .missingFile) :=
  ⟨c10_function_op_tbd_files.1 "f1" (fun _ _ _ => .ok ()) none dryColl emptySt none,
   c10_function_op_tbd_files.2
     ((SubProcOperation.new (Executable.new "sub" .append
         .noFileUsed)).set_input_file .tbd) dryColl emptySt none rfl rfl rfl⟩

/- ----------------------------------------------------------------------
   C6 / C9: executor trace of a chain execution
   ---------------------------------------------------------------------- -/

/-- The observable identity of a stage: its label and whether it is a
subprocess (as opposed to a function call). -/
def opShape (op : RunnableOp) : String × Bool := (op.label, op.isExec)

/-- The stage identities of a chain, in order. -/
def chainShapes (chain : List RunnableOp) : List (String × Bool) :=
  chain.map opShape

/-- The identity of the stage at a given chain index. -/
def stageShape (chain : List RunnableOp) (i : Nat) : String × Bool :=
  (chainShapes chain).getD i (opShape defaultOp)

/-- The observable identity of a recorded executor call. -/
def entShape (e : TraceEnt) : String × Bool := (e.entLabel, e.entIsExec)

/-- Mapping then indexing with the mapped default is indexing then
mapping. -/
theorem map_getD {α β : Type} (g : α → β) (l : List α) (i : Nat) (d : α) :
    (l.map g).getD i (g d) = g (l.getD i d) := by
  induction l generalizing i with
  | nil => cases i <;> rfl
  | cons a t ih => cases i with
    | zero => rfl
    | succ n => exact ih n

/-- `set_input_file` does not change a stage's identity. -/
theorem opShape_set_input (op : RunnableOp) (f : FileArg) :
    opShape (op.set_input_file f) = opShape op := by cases op <;> rfl

/-- `add_input_file` does not change a stage's identity. -/
theorem opShape_add_input (op : RunnableOp) (f : FileArg) :
    opShape (op.add_input_file f) = opShape op := by cases op <;> rfl

/-- `set_output_file` does not change a stage's identity. -/
theorem opShape_set_output (op : RunnableOp) (f : FileArg) :
    opShape (op.set_output_file f) = opShape op := by cases op <;> rfl

/-- Overwriting a chain slot with an identity-preserving update keeps the
chain's stage identities. -/
theorem chainShapes_set (chain : List RunnableOp) (i : Nat) (op' : RunnableOp)
    (h : opShape op' = opShape (chain.getD i defaultOp)) :
    chainShapes (chain.set i op') = chainShapes chain := by
  induction chain generalizing i with
  | nil => rfl
  | cons a t ih =>
    cases i with
    | zero => simp only [chainShapes, List.set, List.map_cons]
              rw [show opShape op' = opShape a from h]
    | succ n =>
      have hh := ih n h
      simp only [chainShapes, List.set, List.map_cons] at hh ⊢
      rw [hh]

/-- `setInputAt` keeps the chain's stage identities. -/
theorem chainShapes_setInputAt (chain : List RunnableOp) (i : Nat) (f : FileArg) :
    chainShapes (setInputAt chain i f) = chainShapes chain :=
  chainShapes_set chain i _ (opShape_set_input _ f)

/-- `addInputAt` keeps the chain's stage identities. -/
theorem chainShapes_addInputAt (chain : List RunnableOp) (i : Nat) (f : FileArg) :
    chainShapes (addInputAt chain i f) = chainShapes chain :=
  chainShapes_set chain i _ (opShape_add_input _ f)

/-- `setOutputAt` keeps the chain's stage identities. -/
theorem chainShapes_setOutputAt (chain : List RunnableOp) (i : Nat) (f : FileArg) :
    chainShapes (setOutputAt chain i f) = chainShapes chain :=
  chainShapes_set chain i _ (opShape_set_output _ f)

/-- Folding input additions over a chain keeps the stage identities. -/
theorem chainShapes_foldl_add (i : Nat) (mk : String → FileArg) :
    ∀ (ps : List String) (chain : List RunnableOp),
      chainShapes (ps.foldl (fun ch p => addInputAt ch i (mk p)) chain)
        = chainShapes chain := by
  intro ps
  induction ps with
  | nil => intro chain; rfl
  | cons p rest ih =>
    intro chain
    simp only [List.foldl_cons]
    rw [ih (addInputAt chain i (mk p)), chainShapes_addInputAt]

/-- Input threading keeps the chain's stage identities. -/
theorem chainShapes_threadInputs (chain : List RunnableOp) (rest : List Nat)
    (ps : List String) (preset : List Nat) :
    chainShapes (threadInputs chain rest ps preset) = chainShapes chain := by
  unfold threadInputs
  split
  · rfl
  · split
    · rfl
    · rw [chainShapes_foldl_add, chainShapes_setInputAt]

/-- Equal stage-identity lists give equal per-index stage identities. -/
theorem stageShape_congr (c1 c2 : List RunnableOp)
    (h : chainShapes c1 = chainShapes c2) : stageShape c1 = stageShape c2 := by
  funext i
  simp [stageShape, h]

/-- The identity at an index is the identity of the indexed op. -/
theorem stageShape_getD (chain : List RunnableOp) (i : Nat) :
    stageShape chain i = opShape (chain.getD i defaultOp) :=
  map_getD opShape chain i defaultOp

/-- `setup_file` never records an executor run. -/
theorem setup_file_fst_trace (c : Collector) (st : ExecSt) (cand : FileArg)
    (om : Except Err ActualFile) :
    (setup_file c st cand om).1.trace = st.trace := by
  cases cand <;> rfl

/-- `setup_exe_file` never records an executor run. -/
theorem setup_exe_file_fst_trace (c : Collector) (st : ExecSt)
    (args : List String) (cwd : Option String) (spec : ExeFileSpec)
    (cand : FileArg) (om : Except Err ActualFile) :
    (SubProcOperation.setup_exe_file c st args cwd spec cand om).1.trace
      = st.trace := by
  have hsf := setup_file_fst_trace c st cand om
  cases spec with
  | noFileUsed => rfl
  | append =>
    simp only [SubProcOperation.setup_exe_file]
    cases h1 : setup_file c st cand om with
    | mk st1 r1 =>
      rw [h1] at hsf
      cases r1 with
      | error e => exact hsf
      | ok sf =>
        dsimp only
        cases h2 : sf.to_paths none with
        | error e => exact hsf
        | ok pths => exact hsf
  | option flag =>
    simp only [SubProcOperation.setup_exe_file]
    cases h1 : setup_file c st cand om with
    | mk st1 r1 =>
      rw [h1] at hsf
      cases r1 with
      | error e => exact hsf
      | ok sf =>
        dsimp only
        cases h2 : sf.to_paths none with
        | error e => exact hsf
        | ok pths =>
          dsimp only
          split <;> exact hsf
  | viaCall userfun =>
    simp only [SubProcOperation.setup_exe_file]
    cases h1 : setup_file c st cand om with
    | mk st1 r1 =>
      rw [h1] at hsf
      cases r1 with
      | error e => exact hsf
      | ok sf =>
        dsimp only
        cases h2 : userfun args cwd sf with
        | error e => exact hsf
        | ok args2 => exact hsf

/-- The input-file fold of `cmd_file_setup` never records an executor
run. -/
theorem setupInputs_fst_trace (c : Collector) (cwd : Option String)
    (spec : ExeFileSpec) :
    ∀ (inps : List FileArg) (st : ExecSt) (args : List String)
      (dfs : ActualFile),
      (SubProcOperation.setupInputs c st args cwd spec inps dfs).1.trace
        = st.trace := by
  intro inps
  induction inps with
  | nil => intro st args dfs; rfl
  | cons f rest ih =>
    intro st args dfs
    simp only [SubProcOperation.setupInputs]
    cases h1 : SubProcOperation.setup_exe_file c st args cwd spec f
        (.error .missingFile) with
    | mk st1 r1 =>
      have ht := setup_exe_file_fst_trace c st args cwd spec f
        (.error .missingFile)
      rw [h1] at ht
      cases r1 with
      | error e => exact ht
      | ok p =>
        obtain ⟨args1, df⟩ := p
        rw [ih st1 args1 (dfs.extend df)]
        exact ht

/-- File setup for a subprocess stage never records an executor run. -/
theorem cmd_file_setup_fst_trace (op : SubProcOperation) (c : Collector)
    (st : ExecSt) (args : List String) (cwd : Option String) :
    (op.cmd_file_setup c st args cwd).1.trace = st.trace := by
  simp only [SubProcOperation.cmd_file_setup]
  split
  · cases h1 : SubProcOperation.setup_exe_file c st args cwd op.exec.out_file
        op.files.out_filename (.error .missingFile) with
    | mk st1 r1 =>
      have ht := setup_exe_file_fst_trace c st args cwd op.exec.out_file
        op.files.out_filename (.error .missingFile)
      rw [h1] at ht
      cases r1 with
      | error e => exact ht
      | ok p =>
        obtain ⟨args1, outf⟩ := p
        dsimp only
        cases h2 : SubProcOperation.setupInputs c st1 args1 cwd
            op.exec.inp_file op.files.inp_filenames .noActualFile with
        | mk st2 r2 =>
          have ht2 := setupInputs_fst_trace c cwd op.exec.inp_file
            op.files.inp_filenames st1 args1 .noActualFile
          rw [h2] at ht2
          cases r2 with
          | error e => exact ht2.trans ht
          | ok q => obtain ⟨args2, inf⟩ := q; exact ht2.trans ht
  · cases h1 : SubProcOperation.setupInputs c st args cwd op.exec.inp_file
        op.files.inp_filenames .noActualFile with
    | mk st1 r1 =>
      have ht := setupInputs_fst_trace c cwd op.exec.inp_file
        op.files.inp_filenames st args .noActualFile
      rw [h1] at ht
      cases r1 with
      | error e => exact ht
      | ok p =>
        obtain ⟨args1, inf⟩ := p
        dsimp only
        cases h2 : SubProcOperation.setup_exe_file c st1 args1 cwd
            op.exec.out_file op.files.out_filename (.error .missingFile) with
        | mk st2 r2 =>
          have ht2 := setup_exe_file_fst_trace c st1 args1 cwd op.exec.out_file
            op.files.out_filename (.error .missingFile)
          rw [h2] at ht2
          cases r2 with
          | error e => exact ht2.trans ht
          | ok q => obtain ⟨args2, outf⟩ := q; exact ht2.trans ht

/-- The input-file fold of `FunctionOperation::execute` never records an
executor run. -/
theorem setupFnInputs_fst_trace (c : Collector) :
    ∀ (inps : List FileArg) (st : ExecSt) (dfs : ActualFile),
      (FunctionOperation.setupFnInputs c st inps dfs).1.trace = st.trace := by
  intro inps
  induction inps with
  | nil => intro st dfs; rfl
  | cons f rest ih =>
    intro st dfs
    simp only [FunctionOperation.setupFnInputs]
    cases h1 : setup_file c st f (.ok .noActualFile) with
    | mk st1 r1 =>
      have ht := setup_file_fst_trace c st f (.ok .noActualFile)
      rw [h1] at ht
      cases r1 with
      | error e => exact ht
      | ok df =>
        rw [ih st1 (dfs.extend df)]
        exact ht

/-- Executing a single stage appends exactly one executor-call record
carrying the stage's identity when it succeeds, and records nothing when
it fails. -/
theorem runnable_execute_trace (op : RunnableOp) (c : Collector)
    (st st' : ExecSt) (cwd : Option String) (res : Except Err ActualFile)
    (h : op.execute c st cwd = (st', res)) :
    (∃ e, st'.trace = st.trace ++ [e] ∧ entShape e = opShape op
        ∧ ∃ af, res = .ok af)
    ∨ (st'.trace = st.trace ∧ ∃ er, res = .error er) := by
  cases op with
  | exec sp =>
    simp only [RunnableOp.execute, SubProcOperation.execute] at h
    cases h1 : SubProcOperation.finalize_args sp c st cwd with
    | mk st1 r1 =>
      rw [h1] at h
      have ht : st1.trace = st.trace := by
        have := cmd_file_setup_fst_trace sp c st sp.args cwd
        rw [show sp.cmd_file_setup c st sp.args cwd
              = SubProcOperation.finalize_args sp c st cwd from rfl, h1] at this
        exact this
      cases r1 with
      | error e =>
        right
        simp only [Prod.mk.injEq] at h
        exact ⟨by rw [← h.1]; exact ht, ⟨e, h.2.symm⟩⟩
      | ok p =>
        obtain ⟨args, inf, outf⟩ := p
        left
        simp only [SubProcOperation.runCmd, Collector.run_executable,
          Prod.mk.injEq] at h
        refine ⟨.runExec sp.name sp.exec.exe_file args sp.env
            (SubProcOperation.resolveFromdir cwd sp.files.in_dir),
          ?_, rfl, outf, h.2.symm⟩
        rw [← h.1]
        simp [ht]
  | call fp =>
    simp only [RunnableOp.execute, FunctionOperation.execute] at h
    cases h1 : FunctionOperation.setupFnInputs c st fp.files.inp_filenames
        .noActualFile with
    | mk st1 r1 =>
      rw [h1] at h
      have ht : st1.trace = st.trace := by
        have := setupFnInputs_fst_trace c fp.files.inp_filenames st .noActualFile
        rw [h1] at this
        exact this
      cases r1 with
      | error e =>
        right
        simp only [Prod.mk.injEq] at h
        exact ⟨by rw [← h.1]; exact ht, ⟨e, h.2.symm⟩⟩
      | ok inpfiles =>
        dsimp only at h
        cases h2 : setup_file c st1 fp.files.out_filename (.ok .noActualFile) with
        | mk st2 r2 =>
          rw [h2] at h
          have ht2 : st2.trace = st1.trace := by
            have := setup_file_fst_trace c st1 fp.files.out_filename
              (.ok .noActualFile)
            rw [h2] at this
            exact this
          cases r2 with
          | error e =>
            right
            simp only [Prod.mk.injEq] at h
            exact ⟨by rw [← h.1, ht2]; exact ht, ⟨e, h.2.symm⟩⟩
          | ok outfile =>
            left
            simp only [FunctionOperation.run_with_files,
              Collector.run_function, Prod.mk.injEq] at h
            refine ⟨.runFunc fp.name inpfiles outfile
                (SubProcOperation.resolveFromdir cwd fp.files.in_dir),
              ?_, rfl, outfile, h.2.symm⟩
            rw [← h.1]
            simp [ht, ht2]

/-- Folding file-arg input additions over a chain keeps the stage
identities. -/
theorem chainShapes_foldl_add_args (i : Nat) :
    ∀ (fs : List FileArg) (chain : List RunnableOp),
      chainShapes (fs.foldl (fun ch f => addInputAt ch i f) chain)
        = chainShapes chain := by
  intro fs
  induction fs with
  | nil => intro chain; rfl
  | cons f rest ih =>
    intro chain
    simp only [List.foldl_cons]
    rw [ih (addInputAt chain i f), chainShapes_addInputAt]

/-- Chain-input installation keeps the chain's stage identities. -/
theorem chainShapes_chainWithInputs (chain : List RunnableOp) (i : Nat)
    (inps : List FileArg) :
    chainShapes (chainWithInputs chain i inps) = chainShapes chain := by
  cases inps with
  | nil => rfl
  | cons f0 fs =>
    simp only [chainWithInputs]
    rw [chainShapes_foldl_add_args, chainShapes_setInputAt]

/-- Chain-output installation keeps the chain's stage identities. -/
theorem chainShapes_chainWithOutput (chain : List RunnableOp) (i : Nat)
    (files : FileTransformation) :
    chainShapes (chainWithOutput chain i files) = chainShapes chain := by
  unfold chainWithOutput
  split
  · exact chainShapes_setOutputAt chain i files.out_filename
  · rfl

/-- The executor-call records appended by `execute_chain` correspond, one
for one and in order, to a prefix of the op-index list it was given, and
to the whole list when it succeeds. -/
theorem execute_chain_trace (c : Collector) (preset : List Nat)
    (cwd : Option String) :
    ∀ (idxs : List Nat) (chain : List RunnableOp) (st st' : ExecSt)
      (chain' : List RunnableOp) (res : Except Err ActualFile),
      execute_chain c chain preset cwd idxs st = (st', chain', res) →
      ∃ ents, st'.trace = st.trace ++ ents
        ∧ ents.map entShape = (idxs.map (stageShape chain)).take ents.length
        ∧ (∀ af, res = .ok af → ents.length = idxs.length) := by
  intro idxs
  induction idxs with
  | nil =>
    intro chain st st' chain' res h
    simp only [execute_chain, Prod.mk.injEq] at h
    refine ⟨[], ?_, rfl, ?_⟩
    · rw [← h.1]; simp
    · intro af haf
      rw [← h.2.2] at haf
      exact absurd haf (by simp)
  | cons op_idx rest ih =>
    intro chain st st' chain' res h
    simp only [execute_chain] at h
    cases hop : (chain.getD op_idx defaultOp).execute c st cwd with
    | mk st1 r1 =>
      rw [hop] at h
      cases r1 with
      | error e =>
        obtain ⟨e1, htr, hshape, af1, hok⟩ | ⟨htr, -⟩ :=
          runnable_execute_trace _ c st st1 cwd (.error e) hop
        · exact absurd hok (by simp)
        · simp only [Prod.mk.injEq] at h
          refine ⟨[], ?_, rfl, ?_⟩
          · rw [← h.1, htr]; simp
          · intro af haf
            rw [← h.2.2] at haf
            exact absurd haf (by simp)
      | ok outfile =>
        obtain ⟨e1, htr, hshape, -⟩ | ⟨-, er, herr⟩ :=
          runnable_execute_trace _ c st st1 cwd (.ok outfile) hop
        · dsimp only at h
          cases rest with
          | nil =>
            simp only [List.isEmpty_nil, if_true, Prod.mk.injEq] at h
            refine ⟨[e1], ?_, ?_, ?_⟩
            · rw [← h.1, htr]
            · simp [hshape, stageShape_getD]
            · intro af haf; rfl
          | cons r2 rs2 =>
            rw [if_neg (by simp)] at h
            cases hps : outfile.to_paths none with
            | ok ps =>
              rw [hps] at h
              obtain ⟨ents2, htr2, hmap2, hlen2⟩ :=
                ih (threadInputs chain (r2 :: rs2) ps preset) st1 st' chain'
                  res h
              have hsh : stageShape (threadInputs chain (r2 :: rs2) ps preset)
                  = stageShape chain :=
                stageShape_congr _ _ (chainShapes_threadInputs _ _ _ _)
              rw [hsh] at hmap2
              refine ⟨e1 :: ents2, ?_, ?_, ?_⟩
              · rw [htr2, htr]; simp
              · rw [List.map_cons, List.map_cons, List.length_cons,
                  List.take_succ_cons, hshape, stageShape_getD, hmap2]
              · intro af haf
                simp [hlen2 af haf]
            | error e =>
              rw [hps] at h
              dsimp only at h
              by_cases he : e = .missingFile
              · rw [if_pos he] at h
                obtain ⟨ents2, htr2, hmap2, hlen2⟩ :=
                  ih chain st1 st' chain' res h
                refine ⟨e1 :: ents2, ?_, ?_, ?_⟩
                · rw [htr2, htr]; simp
                · rw [List.map_cons, List.map_cons, List.length_cons,
                    List.take_succ_cons, hshape, stageShape_getD, hmap2]
                · intro af haf
                  simp [hlen2 af haf]
              · rw [if_neg he] at h
                simp only [Prod.mk.injEq] at h
                refine ⟨[e1], ?_, ?_, ?_⟩
                · rw [← h.1, htr]
                · simp [hshape, stageShape_getD]
                · intro af haf
                  rw [← h.2.2] at haf
                  exact absurd haf (by simp)
        · exact absurd herr (by simp)

/- ----------------------------------------------------------------------
   C6
   ---------------------------------------------------------------------- -/

/-- C6: during a chain execution, the executor-call records appended to
the trace carry, one for one and in order, the identities (label and
subprocess-vs-function kind) of the stages at the enabled indices — so a
stage whose activation is `Disabled` is never handed to the executor, by
either `run_executable` or `run_function` — and when the execution
succeeds, the recorded calls are exactly the enabled stages in chain
order. -/
theorem c6_executor_sees_enabled_stages :
    ∀ (cm : ChainedOpsModel) (c : Collector) (st st' : ExecSt)
      (cwd : Option String) (chain' : List RunnableOp)
      (res : Except Err ActualFile),
      ChainedOps.execute cm c st cwd = (st', chain', res) →
      ∃ ents, st'.trace = st.trace ++ ents
        ∧ ents.map entShape
            = ((enabledIdxs cm).map (stageShape cm.chain)).take ents.length
        ∧ (∀ af, res = .ok af → ents.length = (enabledIdxs cm).length) := by
  intro cm c st st' cwd chain' res h
  simp only [ChainedOps.execute] at h
  by_cases hen : (enabledIdxs cm).isEmpty
  · rw [if_pos hen] at h
    simp only [Prod.mk.injEq] at h
    refine ⟨[], ?_, rfl, ?_⟩
    · rw [← h.1]; simp
    · intro af haf
      rw [List.isEmpty_iff.mp hen]
      rfl
  · rw [if_neg hen] at h
    obtain ⟨ents, htr, hmap, hlen⟩ := execute_chain_trace c cm.preset_inputs
      (chainTgtdir cwd cm.files.in_dir) (enabledIdxs cm) _ st st' chain' res h
    have hsh : stageShape
        (chainWithOutput
          (chainWithInputs cm.chain ((enabledIdxs cm).headD 0)
            cm.files.inp_filenames)
          ((enabledIdxs cm).getLastD 0) cm.files)
        = stageShape cm.chain :=
      stageShape_congr _ _
        ((chainShapes_chainWithOutput _ _ _).trans
          (chainShapes_chainWithInputs _ _ _))
    rw [hsh] at hmap
    exact ⟨ents, htr, hmap, hlen⟩

/-- The one-stage chain used to witness C6. -/
def c6_chain : ChainedOpsModel :=
  { name := "c6"
    chain := [.exec (SubProcOperation.new (Executable.new "six" .noFileUsed
        .noFileUsed))]
    files := FileTransformation.new
    opstate := []
    preset_inputs := [] }

/-- Witness for C6: a one-stage chain executes successfully and its trace
consists of exactly the enabled stage's call. -/
theorem c6_executor_sees_enabled_stages_witness :
    ∃ ents,
      ({ trace := [.runExec "six" "six" [] .stdEnv none], nextTemp := 0 }
          : ExecSt).trace
        = emptySt.trace ++ ents
      ∧ ents.map entShape
          = ((enabledIdxs c6_chain).map (stageShape c6_chain.chain)).take
              ents.length
      ∧ (∀ af, (Except.ok ActualFile.noActualFile : Except Err ActualFile)
            = .ok af → ents.length = (enabledIdxs c6_chain).length) :=
  c6_executor_sees_enabled_stages c6_chain dryColl emptySt
    { trace := [.runExec "six" "six" [] .stdEnv none], nextTemp := 0 } none
    c6_chain.chain (.ok .noActualFile) rfl

/- ----------------------------------------------------------------------
   C9
   ---------------------------------------------------------------------- -/

/-- C9: executing a chain whose enabled-stage list is empty (no
operations, or every operation disabled) returns `Ok(NoActualFile)`
without invoking the executor (the executor state is unchanged) and
without modifying any stage (the chain vector is unchanged). -/
theorem c9_empty_enabled_chain_returns_none :
    ∀ (cm : ChainedOpsModel) (c : Collector) (st : ExecSt)
      (cwd : Option String),
      enabledIdxs cm = [] →
      ChainedOps.execute cm c st cwd = (st, cm.chain, .ok .noActualFile) := by
  intro cm c st cwd h
  simp [ChainedOps.execute, h]

/-- The fully disabled one-stage chain used to witness C9. -/
def c9_chain : ChainedOpsModel :=
  { name := "c9"
    chain := [.exec (SubProcOperation.new (Executable.new "nine" .append
        .noFileUsed))]
    files := FileTransformation.new
    opstate := [(0, .disabled)]
    preset_inputs := [] }

/-- Witness for C9: a chain whose only stage is disabled returns
`Ok(NoActualFile)` with executor state and chain untouched. -/
theorem c9_empty_enabled_chain_returns_none_witness :
    ChainedOps.execute c9_chain dryColl emptySt none
      = (emptySt, c9_chain.chain, .ok .noActualFile) :=
  c9_empty_enabled_chain_returns_none c9_chain dryColl emptySt none (by decide)

end Chainsop
